import Mathlib

/-!
Shallow embedding of the Candidate Discovery & Adaptive Scoring Pipeline
(crypto_advanced_bot.py).  Machine floats are modelled by exact rationals
(`ℚ`); Python's `int()` truncation is modelled by `ratTrunc`.  Python lists
become `List ℚ`, `None`-able dictionary fields become `Option` fields, and
an exception caught inside a function becomes an `Option` result.
-/

namespace CryptoBot

/-! ## List helpers shared by the indicator functions -/

/-- Python's `l[-n:]` slice: the trailing `n` elements, the whole list when
`n = 0` (Python's `l[-0:]` is `l[0:]`) or when `n ≥ len(l)`. -/
def lastN (n : ℕ) (l : List ℚ) : List ℚ :=
  if n = 0 then l else l.drop (l.length - n)

/-- `np.mean`: sum divided by length (0 on the empty list in this model). -/
def mean (l : List ℚ) : ℚ := l.sum / (l.length : ℚ)

/-- Python's `int()` on a rational: truncation toward zero. -/
def ratTrunc (q : ℚ) : ℤ := if q < 0 then -⌊-q⌋ else ⌊q⌋

/-! ## TechnicalAnalyzer (TechnicalAnalyzer class, src/123.py lines 355-444) -/

/-- The `TechnicalIndicators` dataclass: every field defaults to 0. -/
structure TechnicalIndicators where
  sma_20 : ℚ := 0
  ema_12 : ℚ := 0
  ema_26 : ℚ := 0
  rsi : ℚ := 0
  macd : ℚ := 0
  macd_signal : ℚ := 0
  macd_histogram : ℚ := 0
  volume_sma : ℚ := 0
deriving DecidableEq

/-- `TechnicalAnalyzer.calculate_sma`: mean of the trailing `window` points;
for a series shorter than `window` it returns the most recent point, or 0
when the series is empty. -/
def calculate_sma (prices : List ℚ) (window : ℕ) : ℚ :=
  if prices.length < window then
    match prices.getLast? with
    | some p => p
    | none => 0
  else mean (lastN window prices)

/-- `TechnicalAnalyzer.calculate_ema`: pandas `ewm(span=window, adjust=False)`,
i.e. `y₀ = x₀`, `yₜ = (1-α)·yₜ₋₁ + α·xₜ` with `α = 2/(window+1)`; 0 on the
empty series. -/
def calculate_ema (prices : List ℚ) (window : ℕ) : ℚ :=
  match prices with
  | [] => 0
  | p :: rest =>
      let α : ℚ := 2 / ((window : ℚ) + 1)
      rest.foldl (fun acc x => (1 - α) * acc + α * x) p

/-- `np.diff(prices)`: consecutive differences `prices[i+1] - prices[i]`. -/
def deltas (prices : List ℚ) : List ℚ :=
  List.zipWith (fun a b => a - b) prices.tail prices

/-- `np.where(deltas > 0, deltas, 0)` in `calculate_rsi`. -/
def gains_list (prices : List ℚ) : List ℚ :=
  (deltas prices).map (fun d => if 0 < d then d else 0)

/-- `np.where(deltas < 0, -deltas, 0)` in `calculate_rsi`. -/
def losses_list (prices : List ℚ) : List ℚ :=
  (deltas prices).map (fun d => if d < 0 then -d else 0)

/-- `np.mean(gains[-window:])` in `calculate_rsi`. -/
def avg_gain (prices : List ℚ) (window : ℕ) : ℚ := mean (lastN window (gains_list prices))

/-- `np.mean(losses[-window:])` in `calculate_rsi`. -/
def avg_loss (prices : List ℚ) (window : ℕ) : ℚ := mean (lastN window (losses_list prices))

/-- `TechnicalAnalyzer.calculate_rsi` (default window 14): 50 when the series
is shorter than `window+1`; 100 when the average loss is zero; otherwise
`100 - 100/(1+rs)` with `rs = avg_gain/avg_loss`. -/
def calculate_rsi (prices : List ℚ) (window : ℕ := 14) : ℚ :=
  if prices.length < window + 1 then 50
  else if avg_loss prices window = 0 then 100
  else 100 - 100 / (1 + avg_gain prices window / avg_loss prices window)

/-- The rolling MACD-line values of `calculate_macd`: one value per 26-point
window ending at each index from 25 onward. -/
def macd_values (prices : List ℚ) : List ℚ :=
  (List.range prices.length).filterMap (fun i =>
    if 25 ≤ i then
      some (calculate_ema ((prices.drop (i - 25)).take 26) 12
            - calculate_ema ((prices.drop (i - 25)).take 26) 26)
    else none)

/-- `TechnicalAnalyzer.calculate_macd`: `(0,0,0)` for fewer than 26 points;
otherwise MACD line = ema12 - ema26, signal = EMA(9) of the rolling MACD
values, histogram = macd - signal. -/
def calculate_macd (prices : List ℚ) : ℚ × ℚ × ℚ :=
  if prices.length < 26 then (0, 0, 0)
  else
    let macd := calculate_ema prices 12 - calculate_ema prices 26
    let vals := macd_values prices
    let signal :=
      if 9 ≤ vals.length then calculate_ema vals 9
      else match vals.getLast? with
        | some v => v
        | none => macd
    (macd, signal, macd - signal)

/-- `TechnicalAnalyzer.calculate_indicators`, with the database read
(`get_historical_data`) passed in as the price and volume series; an empty
history yields the all-defaults `TechnicalIndicators()`. -/
def calculate_indicators (prices volumes : List ℚ) : TechnicalIndicators :=
  if prices = [] then {}
  else
    let m := calculate_macd prices
    { sma_20 := calculate_sma prices 20
      ema_12 := calculate_ema prices 12
      ema_26 := calculate_ema prices 26
      rsi := calculate_rsi prices
      volume_sma := calculate_sma volumes 20
      macd := m.1
      macd_signal := m.2.1
      macd_histogram := m.2.2 }

/-- Hardcoded series `[1, 2, ..., 30]` of the spec's RSI scenario. -/
def rampSeries : List ℚ :=
  [1, 2, 3, 4, 5, 6, 7, 8, 9, 10, 11, 12, 13, 14, 15, 16, 17, 18, 19, 20,
   21, 22, 23, 24, 25, 26, 27, 28, 29, 30]

/-! ## MLModel (src/123.py lines 446-493) -/

/-- The `MLModel.weights` dictionary, one field per key. -/
structure Weights where
  volume_ratio : ℚ
  price_momentum : ℚ
  market_cap : ℚ
  technical_indicators : ℚ
  new_coin_bonus : ℚ
deriving DecidableEq

/-- The weights `MLModel.__init__` installs. -/
def initial_weights : Weights :=
  { volume_ratio := 3/10
    price_momentum := 1/4
    market_cap := 1/5
    technical_indicators := 3/20
    new_coin_bonus := 1/10 }

/-- One row of the `signals` table as `get_signal_stats` reads it (already
restricted to the queried period). -/
structure SigStatRow where
  status : String
  is_new : Bool
deriving DecidableEq

/-- The aggregate counts `DatabaseManager.get_signal_stats` returns (the
fields `retrain_model` reads). -/
structure SignalStats where
  total_signals : ℕ
  successful_signals : ℕ
  success_rate : ℚ
  new_total : ℕ
  new_success : ℕ
  new_success_rate : ℚ
deriving DecidableEq

/-- `DatabaseManager.get_signal_stats`: counts over the terminal
(`status != 'active'`) signals of the period, overall and restricted to
`is_new = TRUE`; each rate is `success/total*100`, 0 when the total is 0. -/
def get_signal_stats (rows : List SigStatRow) : SignalStats :=
  let term := rows.filter (fun r => r.status ≠ "active")
  let total := term.length
  let succ := (term.filter (fun r => r.status = "success")).length
  let newTerm := term.filter (fun r => r.is_new)
  let newTotal := newTerm.length
  let newSucc := (newTerm.filter (fun r => r.status = "success")).length
  { total_signals := total
    successful_signals := succ
    success_rate := if 0 < total then (succ : ℚ) / (total : ℚ) * 100 else 0
    new_total := newTotal
    new_success := newSucc
    new_success_rate := if 0 < newTotal then (newSucc : ℚ) / (newTotal : ℚ) * 100 else 0 }

/-- `MLModel.retrain_model`: a no-op below 10 terminal signals; otherwise it
moves only `new_coin_bonus`, by 0.02 toward the side on which the new-coin
success rate beats or trails the overall rate by more than 10 points,
clamped to `[0.05, 0.2]`. -/
def retrain_model (rows : List SigStatRow) (w : Weights) : Weights :=
  let stats := get_signal_stats rows
  if stats.total_signals < 10 then w
  else if stats.new_success_rate > stats.success_rate + 10 then
    { w with new_coin_bonus := min (1/5) (w.new_coin_bonus + 1/50) }
  else if stats.new_success_rate < stats.success_rate - 10 then
    { w with new_coin_bonus := max (1/20) (w.new_coin_bonus - 1/50) }
  else w

/-! ### A small heap of weight dictionaries, for `MLModel.get_weights`

Python dictionaries are heap objects; `self.weights.copy()` allocates a
fresh one.  The heap is a list of dictionaries indexed by allocation
order; `MLModel` holds the index of its own dictionary. -/

/-- The heap of weight dictionaries. -/
structure DictHeap where
  cells : List Weights
deriving DecidableEq

/-- Dereference a dictionary. -/
def readRef (h : DictHeap) (r : ℕ) : Option Weights := h.cells[r]?

/-- Mutate the dictionary behind a reference (what a caller does to the
mapping it was handed). -/
def writeRef (h : DictHeap) (r : ℕ) (w : Weights) : DictHeap := ⟨h.cells.set r w⟩

/-- `MLModel.get_weights`: `return self.weights.copy()` — allocate a fresh
dictionary with the same contents and hand back the fresh reference. -/
def get_weights (h : DictHeap) (r : ℕ) : DictHeap × ℕ :=
  match h.cells[r]? with
  | some w => (⟨h.cells ++ [w]⟩, h.cells.length)
  | none => (h, h.cells.length)

/-! ## DatabaseManager.save_feedback (src/123.py lines 211-232) -/

/-- One row of the `signals` table (the columns `save_feedback` touches). -/
structure SignalRow where
  id : ℕ
  symbol : String
  status : String
  feedback_timestamp : Option ℕ
deriving DecidableEq

/-- One row of the `feedback` table. -/
structure FeedbackRow where
  signal_id : ℕ
  symbol : String
  feedback_type : String
  user_comment : String
  original_score : ℤ
  timestamp : ℕ
deriving DecidableEq

/-- The two tables `save_feedback` works on. -/
structure DBState where
  signals : List SignalRow
  feedback : List FeedbackRow
deriving DecidableEq

/-- `DatabaseManager.save_feedback`: unconditionally INSERT a feedback row,
then UPDATE the status and feedback timestamp of every signal whose id
matches (no existence or terminal-status check appears in the code). -/
def save_feedback (st : DBState) (signal_id : ℕ) (symbol : String)
    (feedback_type : String) (original_score : ℤ) (comment : String) (now : ℕ) : DBState :=
  { feedback := st.feedback ++ [⟨signal_id, symbol, feedback_type, comment, original_score, now⟩]
    signals := st.signals.map (fun row =>
      if row.id = signal_id then
        { row with status := feedback_type, feedback_timestamp := some now }
      else row) }

/-! ## AdvancedAnalyzer scoring (src/123.py lines 636-774) -/

/-- The candidate fields `calculate_advanced_score` reads, after the
`.get(..., 0) or 0` defaulting of the two change fields. -/
structure Coin where
  total_volume : ℚ
  market_cap : ℚ
  price_change_24h : ℚ
  price_change_7d : ℚ
deriving DecidableEq

/-- The raw weighted sum accumulated in `score` by
`calculate_advanced_score`, before `int()` and before any clamping: the four
weighted sub-scores plus the unweighted risk adjustment. -/
def raw_score (coin : Coin) (ind : TechnicalIndicators) (w : Weights) : ℚ :=
  let volume_ratio := if 0 < coin.market_cap then coin.total_volume / coin.market_cap else 0
  let volume_score : ℚ :=
    if volume_ratio > 3/10 then 30
    else if volume_ratio > 3/20 then 20
    else if volume_ratio > 1/20 then 10
    else 0
  let momentum_score : ℚ :=
    if 10 < coin.price_change_24h ∧ coin.price_change_24h < 50 ∧ 20 < coin.price_change_7d then 25
    else if 5 < coin.price_change_24h ∧ coin.price_change_24h < 10 ∧ 10 < coin.price_change_7d then 15
    else 0
  let market_cap_score : ℚ :=
    if coin.market_cap < 50000000 then 20
    else if coin.market_cap < 200000000 then 10
    else 0
  let technical_score : ℚ :=
    (if ind.rsi < 35 then 8 else if 65 < ind.rsi then -5 else 0)
    + (if ind.macd_signal < ind.macd then 7 else 0)
  let s := volume_score * w.volume_ratio + momentum_score * w.price_momentum
    + market_cap_score * w.market_cap + technical_score * w.technical_indicators
  if 80 < coin.price_change_24h then s - 15
  else if coin.price_change_24h < -20 then s + 5
  else s

/-- `AdvancedAnalyzer.calculate_advanced_score`'s returned base score:
`max(0, min(100, int(score)))`. -/
def calculate_advanced_score (coin : Coin) (ind : TechnicalIndicators) (w : Weights) : ℤ :=
  max 0 (min 100 (ratTrunc (raw_score coin ind w)))

/-- The final score `AdvancedAnalyzer.analyze_coin` computes from the base
score: `min(100, base_score + 15)` for a new coin, the base score itself
otherwise. -/
def final_score (coin : Coin) (is_new : Bool) (ind : TechnicalIndicators) (w : Weights) : ℤ :=
  let base := calculate_advanced_score coin ind w
  if is_new then min 100 (base + 15) else base

/-- Written from the spec's words for comparison with `final_score` (claim
C2): the score clamped to `[0, 100]` exactly once, as the last step of the
whole computation, after the new-coin bonus is added to the raw score. -/
def final_score_single_clamp (coin : Coin) (is_new : Bool)
    (ind : TechnicalIndicators) (w : Weights) : ℤ :=
  let bonus : ℤ := if is_new then 15 else 0
  max 0 (min 100 (ratTrunc (raw_score coin ind w) + bonus))

/-- A raw upstream market record as `analyze_coin` receives it: a required
field that is absent raises `KeyError` in the Python (modelled as `none`),
the `.get` fields default. -/
structure CoinRec where
  symbol : Option String
  name : Option String
  current_price : Option ℚ
  market_cap : Option ℚ
  total_volume : Option ℚ
  price_change_percentage_24h : Option ℚ
  price_change_percentage_7d_in_currency : Option ℚ
  is_new : Bool
deriving DecidableEq

/-- The analysis dictionary `analyze_coin` returns (the numeric fields). -/
structure AnalysisResult where
  symbol : String
  name : String
  score : ℤ
  base_score : ℤ
  price : ℚ
  market_cap : ℚ
  volume : ℚ
  volume_ratio : ℚ
  is_new : Bool
  bonus_applied : ℤ
deriving DecidableEq

/-- `AdvancedAnalyzer.analyze_coin`, with the weight vector and the stored
price/volume history passed in: any missing required field makes the body
raise, the surrounding `except` catches it and the function returns `None`
(here `none`); otherwise indicators, base score and the new-coin bonus are
computed and the result dictionary is returned. -/
def analyze_coin (w : Weights) (prices volumes : List ℚ) (rec : CoinRec) :
    Option AnalysisResult := do
  let sym ← rec.symbol
  let nm ← rec.name
  let price ← rec.current_price
  let mc ← rec.market_cap
  let tv ← rec.total_volume
  let pc24 := rec.price_change_percentage_24h.getD 0
  let pc7 := rec.price_change_percentage_7d_in_currency.getD 0
  let ind := calculate_indicators prices volumes
  let coin : Coin := ⟨tv, mc, pc24, pc7⟩
  let base := calculate_advanced_score coin ind w
  some
    { symbol := sym.toUpper
      name := nm
      score := if rec.is_new then min 100 (base + 15) else base
      base_score := base
      price := price
      market_cap := mc
      volume := tv
      volume_ratio := if 0 < mc then tv / mc else 0
      is_new := rec.is_new
      bonus_applied := if rec.is_new then 15 else 0 }

/-- Modelled from the spec: the AnalysisScheduler loop over the candidate
set (not among the repository's files) collects the non-`None` analyses and
drops the failed candidates; `hist` stands for each candidate's stored
price/volume history. -/
def analyze_batch (w : Weights) (hist : CoinRec → List ℚ × List ℚ)
    (recs : List CoinRec) : List AnalysisResult :=
  recs.filterMap (fun r => analyze_coin w (hist r).1 (hist r).2 r)

/-! ## DiscoveryAggregator deduplication -/

/-- A discovered candidate: the dedup key `symbol` plus enough payload to
tell two sources' candidates apart. -/
structure Candidate where
  symbol : String
  name : String
  discovery_source : String
deriving DecidableEq

/-- Modelled from the spec: DiscoveryAggregator's deduplication (not among
the repository's files) — iterate the concatenated strategy outputs in
their fixed order and keep a candidate only when its symbol has not been
seen yet, so the first writer for a symbol wins. -/
def dedupe (l : List Candidate) : List Candidate :=
  l.foldl (fun acc c => if acc.any (fun d => d.symbol == c.symbol) then acc else acc ++ [c]) []

/-- A second weight vector, differing from `initial_weights` only in the
`volume_ratio` component. -/
def wAlt : Weights := { initial_weights with volume_ratio := 1 }

/-! ## Helper lemmas -/

theorem mean_nonneg (l : List ℚ) (h : ∀ x ∈ l, 0 ≤ x) : 0 ≤ mean l :=
  div_nonneg (List.sum_nonneg h) (Nat.cast_nonneg _)

theorem lastN_subset (n : ℕ) (l : List ℚ) : lastN n l ⊆ l := by
  unfold lastN
  split
  · exact fun x hx => hx
  · exact List.drop_subset _ _

theorem gains_list_nonneg (prices : List ℚ) : ∀ x ∈ gains_list prices, 0 ≤ x := by
  intro x hx
  obtain ⟨d, _, rfl⟩ := List.mem_map.mp hx
  split
  · next hd => exact le_of_lt hd
  · exact le_refl 0

theorem losses_list_nonneg (prices : List ℚ) : ∀ x ∈ losses_list prices, 0 ≤ x := by
  intro x hx
  obtain ⟨d, _, rfl⟩ := List.mem_map.mp hx
  split
  · next hd => linarith
  · exact le_refl 0

theorem avg_gain_nonneg (prices : List ℚ) (window : ℕ) : 0 ≤ avg_gain prices window :=
  mean_nonneg _ (fun x hx => gains_list_nonneg prices x (lastN_subset _ _ hx))

theorem avg_loss_nonneg (prices : List ℚ) (window : ℕ) : 0 ≤ avg_loss prices window :=
  mean_nonneg _ (fun x hx => losses_list_nonneg prices x (lastN_subset _ _ hx))

theorem final_score_congr (coin : Coin) (is_new : Bool) (ind : TechnicalIndicators)
    (w1 w2 : Weights) (h1 : w1.volume_ratio = w2.volume_ratio)
    (h2 : w1.price_momentum = w2.price_momentum) (h3 : w1.market_cap = w2.market_cap)
    (h4 : w1.technical_indicators = w2.technical_indicators) :
    final_score coin is_new ind w1 = final_score coin is_new ind w2 := by
  simp only [final_score, calculate_advanced_score, raw_score, h1, h2, h3, h4]

/-! ## Claim C1 -/

/-- A database holding one signal that is already terminal (`success`). -/
def feedbackState0 : DBState := ⟨[⟨1, "BTC", "success", some 5⟩], []⟩

/-- C1 counterexample: signal 1 of `feedbackState0` is already terminal
(status `success`), yet `save_feedback` with outcome `fail` overwrites its
status and inserts a feedback row — the stored status does not remain
unchanged and state is mutated, so the feedback is not rejected. -/
theorem c1_terminal_regrade_cex :
    feedbackState0.signals = [⟨1, "BTC", "success", some 5⟩]
    ∧ (save_feedback feedbackState0 1 "BTC" "fail" 80 "" 9).signals
        = [⟨1, "BTC", "fail", some 9⟩]
    ∧ (save_feedback feedbackState0 1 "BTC" "fail" 80 "" 9).feedback ≠ feedbackState0.feedback
    ∧ ("fail" : String) ≠ "success" := by
  refine ⟨rfl, rfl, ?_, ?_⟩ <;> decide

/-- C1 (amended): `save_feedback` performs no existence or terminal-status
check — it unconditionally appends a feedback row; every stored signal whose
id matches gets its status overwritten with the outcome and its feedback
timestamp set, even when that signal is already terminal (re-grading is
permitted); when no stored signal carries the id, the signals table alone is
left unchanged while the feedback row is still inserted. -/
theorem c1_feedback_overwrite_amended (st : DBState) (sid : ℕ) (sym ftype comment : String)
    (score : ℤ) (now : ℕ) :
    (save_feedback st sid sym ftype score comment now).feedback
        = st.feedback ++ [⟨sid, sym, ftype, comment, score, now⟩]
    ∧ (∀ row ∈ st.signals, row.id = sid →
        { row with status := ftype, feedback_timestamp := some now }
          ∈ (save_feedback st sid sym ftype score comment now).signals)
    ∧ ((∀ row ∈ st.signals, row.id ≠ sid) →
        (save_feedback st sid sym ftype score comment now).signals = st.signals) := by
  refine ⟨rfl, ?_, ?_⟩
  · intro row hrow hid
    have hfun : (fun row : SignalRow =>
        if row.id = sid then { row with status := ftype, feedback_timestamp := some now }
        else row) row = { row with status := ftype, feedback_timestamp := some now } :=
      if_pos hid
    exact hfun ▸ List.mem_map_of_mem _ hrow
  · intro hnone
    show st.signals.map _ = st.signals
    rw [List.map_congr_left (fun r hr => if_neg (hnone r hr))]
    exact List.map_id' st.signals

/-! ## Claim C2 -/

/-- A candidate whose raw weighted score is negative: no volume, no
momentum, large cap, overbought RSI, extreme 24h pump. -/
def riskCoin : Coin := ⟨0, 300000000, 100, 0⟩

/-- Indicators with an overbought RSI for `riskCoin`. -/
def riskInd : TechnicalIndicators := { rsi := 70 }

/-- C2 counterexample: for `riskCoin` flagged new, the raw weighted score is
`-63/4` (overbought RSI deduction and risk adjustment), so clamping once at
the very end — after the +15 new-coin bonus, as the claim states — would
give 0, yet `analyze_coin`'s final score is 15: the base score is clamped to
0 before the bonus and the negative contributions do not offset it. -/
theorem c2_clamp_order_cex :
    raw_score riskCoin riskInd initial_weights = -63/4
    ∧ final_score riskCoin true riskInd initial_weights = 15
    ∧ final_score_single_clamp riskCoin true riskInd initial_weights = 0 := by
  have hraw : raw_score riskCoin riskInd initial_weights = -63/4 := by
    norm_num [raw_score, riskCoin, riskInd, initial_weights]
  have htr : ratTrunc (-63/4 : ℚ) = -15 := by norm_num [ratTrunc]
  refine ⟨hraw, ?_, ?_⟩
  all_goals
    simp only [final_score, final_score_single_clamp, calculate_advanced_score, hraw, htr]
    decide

/-- C2 (amended): the final score equals `min(100, base + bonus)` where the
base score is already clamped to `[0,100]` inside
`calculate_advanced_score`, before the new-coin bonus is added — clamping
happens twice, not once at the end, so negative intermediate contributions
are truncated at 0 and do not offset the bonus; the final score nevertheless
always lies in `[0,100]` however extreme the sub-scores and the risk
adjustment are. -/
theorem c2_clamp_order_amended (coin : Coin) (is_new : Bool)
    (ind : TechnicalIndicators) (w : Weights) :
    0 ≤ final_score coin is_new ind w
    ∧ final_score coin is_new ind w ≤ 100
    ∧ calculate_advanced_score coin ind w
        = max 0 (min 100 (ratTrunc (raw_score coin ind w)))
    ∧ final_score coin is_new ind w
        = min 100 (calculate_advanced_score coin ind w + (if is_new then 15 else 0)) := by
  unfold final_score calculate_advanced_score
  cases is_new
  all_goals simp
  all_goals omega

/-! ## Claim C4 -/

/-- The property claim C4 asserts: some candidate's score is sensitive to
the `new_coin_bonus` weight component alone. -/
def score_reads_new_coin_weight : Prop :=
  ∃ (w1 w2 : Weights) (coin : Coin) (ind : TechnicalIndicators) (is_new : Bool),
    w1.volume_ratio = w2.volume_ratio ∧ w1.price_momentum = w2.price_momentum
    ∧ w1.market_cap = w2.market_cap ∧ w1.technical_indicators = w2.technical_indicators
    ∧ w1.new_coin_bonus ≠ w2.new_coin_bonus
    ∧ final_score coin is_new ind w1 ≠ final_score coin is_new ind w2

/-- C4 counterexample: no pair of weight vectors differing only in
`new_coin_bonus` can produce different scores for any candidate — the
scoring computation never reads that component (the new-coin bonus it
applies is the flat constant 15). -/
theorem c4_new_coin_weight_unread_cex : score_reads_new_coin_weight = False :=
  eq_false (fun ⟨w1, w2, coin, ind, b, h1, h2, h3, h4, _, hsc⟩ =>
    hsc (final_score_congr coin b ind w1 w2 h1 h2 h3 h4))

/-- A candidate with a high volume ratio and small cap, used to show the
`volume_ratio` weight component is read by the score computation. -/
def volCoin : Coin := ⟨40, 100, 0, 0⟩

/-- C4 (amended): the score computation reads the `volume_ratio`,
`price_momentum`, `market_cap` and `technical_indicators` components of the
weight vector — changing `volume_ratio` alone changes `volCoin`'s score from
14 to 35 — but never the `new_coin_bonus` component that `retrain_model`
adjusts: two weight vectors agreeing on the four read components yield
identical scores for every candidate, and the new-coin bonus applied on top
of the base score is the flat constant 15, not the weight. -/
theorem c4_weights_feedback_amended (w1 w2 : Weights) (coin : Coin)
    (ind : TechnicalIndicators) (is_new : Bool) :
    ((w1.volume_ratio = w2.volume_ratio ∧ w1.price_momentum = w2.price_momentum
      ∧ w1.market_cap = w2.market_cap ∧ w1.technical_indicators = w2.technical_indicators)
      → final_score coin is_new ind w1 = final_score coin is_new ind w2)
    ∧ final_score coin true ind w1 = min 100 (calculate_advanced_score coin ind w1 + 15)
    ∧ final_score volCoin false {} initial_weights = 14
    ∧ final_score volCoin false {} wAlt = 35 := by
  refine ⟨fun ⟨h1, h2, h3, h4⟩ => final_score_congr coin is_new ind w1 w2 h1 h2 h3 h4,
    rfl, ?_, ?_⟩
  · have hraw : raw_score volCoin {} initial_weights = 71/5 := by
      norm_num [raw_score, volCoin, initial_weights]
    have htr : ratTrunc (71/5 : ℚ) = 14 := by norm_num [ratTrunc]
    simp only [final_score, calculate_advanced_score, hraw, htr]
    decide
  · have hraw : raw_score volCoin {} wAlt = 176/5 := by
      norm_num [raw_score, volCoin, wAlt, initial_weights]
    have htr : ratTrunc (176/5 : ℚ) = 35 := by norm_num [ratTrunc]
    simp only [final_score, calculate_advanced_score, hraw, htr]
    decide

/-! ## Claim C3 -/

/-- C3 counterexample: on the one-point series `[5]`, which is shorter than
any of the claimed minimum windows, `calculate_sma` returns the most recent
price 5 and `calculate_ema` returns the seeded EWM value 5 — neither returns
the claimed fallback 0. -/
theorem c3_short_series_cex :
    calculate_sma [5] 20 = 5 ∧ calculate_ema [5] 12 = 5 ∧ (5 : ℚ) ≠ 0 := by
  refine ⟨by decide, by decide, by decide⟩

/-- C3 (amended): for a series shorter than the minimum window,
`calculate_rsi` returns 50 and `calculate_macd` returns `(0,0,0)`, as
claimed; `calculate_sma`, however, returns the most recent point of a
nonempty short series and 0 only on the empty series, and `calculate_ema`
returns 0 only on the empty series (on any nonempty series it computes the
exponentially weighted mean regardless of length). -/
theorem c3_short_series_fallbacks_amended (prices : List ℚ) (window : ℕ) :
    (prices.length < window + 1 → calculate_rsi prices window = 50)
    ∧ (prices.length < 26 → calculate_macd prices = (0, 0, 0))
    ∧ (calculate_sma [] window = 0)
    ∧ (∀ (p : ℚ) (ps : List ℚ), (p :: ps).length < window →
        calculate_sma (p :: ps) window = (p :: ps).getLast (List.cons_ne_nil p ps))
    ∧ (calculate_ema [] window = 0) := by
  refine ⟨?_, ?_, ?_, ?_, rfl⟩
  · intro h
    unfold calculate_rsi
    rw [if_pos h]
  · intro h
    unfold calculate_macd
    rw [if_pos h]
  · unfold calculate_sma
    split
    · rfl
    · simp [mean, lastN]
  · intro p ps h
    unfold calculate_sma
    rw [if_pos h, List.getLast?_eq_getLast _ (List.cons_ne_nil p ps)]

/-! ## Claim C5 -/

/-- C5: `calculate_rsi` always lies in `[0,100]` (for a positive window, as
in every call site); it is exactly 50 for a series shorter than `window+1`
points, exactly 100 whenever the trailing average loss is zero (so no
division by zero occurs), and exactly 100 on the strictly increasing ramp
`[1,2,...,30]`. -/
theorem c5_rsi_bounds (prices : List ℚ) (window : ℕ) :
    (0 < window → 0 ≤ calculate_rsi prices window ∧ calculate_rsi prices window ≤ 100)
    ∧ (prices.length < window + 1 → calculate_rsi prices window = 50)
    ∧ (window + 1 ≤ prices.length → avg_loss prices window = 0 →
        calculate_rsi prices window = 100)
    ∧ calculate_rsi rampSeries 14 = 100 := by
  refine ⟨?_, ?_, ?_, ?_⟩
  · intro _
    unfold calculate_rsi
    split
    · norm_num
    split
    · norm_num
    · next hshort hloss =>
      have hl : 0 < avg_loss prices window :=
        lt_of_le_of_ne (avg_loss_nonneg prices window) (Ne.symm hloss)
      have hg : 0 ≤ avg_gain prices window := avg_gain_nonneg prices window
      have hrs : 0 ≤ avg_gain prices window / avg_loss prices window :=
        div_nonneg hg (le_of_lt hl)
      have hquot : (0 : ℚ) < 100 / (1 + avg_gain prices window / avg_loss prices window) :=
        div_pos (by norm_num) (by linarith)
      have hle : 100 / (1 + avg_gain prices window / avg_loss prices window) ≤ 100 :=
        div_le_self (by norm_num) (by linarith)
      constructor <;> linarith
  · intro h
    unfold calculate_rsi
    rw [if_pos h]
  · intro hlen hloss
    unfold calculate_rsi
    rw [if_neg (by omega), if_pos hloss]
  · norm_num [calculate_rsi, rampSeries, avg_loss, mean, lastN, losses_list, gains_list, deltas]

/-! ## Claim C6 -/

/-- C6: whenever the terminal-signal count reported by `get_signal_stats`
is below the minimum sample size 10, `retrain_model` returns the weight
vector unchanged. -/
theorem c6_retrain_min_sample_noop (rows : List SigStatRow) (w : Weights)
    (h : (get_signal_stats rows).total_signals < 10) :
    retrain_model rows w = w := by
  unfold retrain_model
  rw [if_pos h]

/-- Witness for C6 at the empty signal history. -/
theorem c6_retrain_min_sample_noop_witness :
    (get_signal_stats []).total_signals < 10
    ∧ retrain_model [] initial_weights = initial_weights :=
  ⟨by decide, c6_retrain_min_sample_noop [] initial_weights (by decide)⟩

/-! ## Claim C7 -/

/-- C7: every `retrain_model` call leaves the `volume_ratio`,
`price_momentum`, `market_cap` and `technical_indicators` components
unchanged; with enough samples it sets `new_coin_bonus` to the 0.02-step
clamped update in the direction dictated by the 10-point margin; and for a
component inside the clamp band `[0.05, 0.2]`, it moves upward only when
the new-coin success rate beats the overall rate by more than 10 points,
downward only when it trails by more than 10, and stays inside the band. -/
theorem c7_retrain_frame (rows : List SigStatRow) (w : Weights) :
    (retrain_model rows w).volume_ratio = w.volume_ratio
    ∧ (retrain_model rows w).price_momentum = w.price_momentum
    ∧ (retrain_model rows w).market_cap = w.market_cap
    ∧ (retrain_model rows w).technical_indicators = w.technical_indicators
    ∧ (10 ≤ (get_signal_stats rows).total_signals →
        (get_signal_stats rows).success_rate + 10 < (get_signal_stats rows).new_success_rate →
        (retrain_model rows w).new_coin_bonus = min (1/5) (w.new_coin_bonus + 1/50))
    ∧ (10 ≤ (get_signal_stats rows).total_signals →
        (get_signal_stats rows).new_success_rate < (get_signal_stats rows).success_rate - 10 →
        (retrain_model rows w).new_coin_bonus = max (1/20) (w.new_coin_bonus - 1/50))
    ∧ (1/20 ≤ w.new_coin_bonus → w.new_coin_bonus ≤ 1/5 →
        (w.new_coin_bonus < (retrain_model rows w).new_coin_bonus →
          (get_signal_stats rows).success_rate + 10 < (get_signal_stats rows).new_success_rate)
        ∧ ((retrain_model rows w).new_coin_bonus < w.new_coin_bonus →
          (get_signal_stats rows).new_success_rate < (get_signal_stats rows).success_rate - 10)
        ∧ 1/20 ≤ (retrain_model rows w).new_coin_bonus
        ∧ (retrain_model rows w).new_coin_bonus ≤ 1/5) := by
  unfold retrain_model
  dsimp only
  split_ifs with h1 h2 h3
  · exact ⟨rfl, rfl, rfl, rfl,
      fun h10 _ => absurd h10 (by omega),
      fun h10 _ => absurd h10 (by omega),
      fun hlo hhi => ⟨fun hlt => absurd hlt (lt_irrefl _),
        fun hlt => absurd hlt (lt_irrefl _), hlo, hhi⟩⟩
  · refine ⟨rfl, rfl, rfl, rfl, fun _ _ => rfl, fun _ hdn => absurd hdn (by linarith), ?_⟩
    intro hlo hhi
    refine ⟨fun _ => h2, ?_, ?_, ?_⟩
    · intro hdn
      exact absurd (le_min hhi (by linarith)) (not_le.mpr hdn)
    · exact le_min (by norm_num) (by linarith)
    · exact min_le_left _ _
  · refine ⟨rfl, rfl, rfl, rfl, fun _ hup => absurd hup h2, fun _ _ => rfl, ?_⟩
    intro hlo hhi
    refine ⟨?_, fun _ => h3, ?_, ?_⟩
    · intro hup
      exact absurd (max_le hlo (by linarith)) (not_le.mpr hup)
    · exact le_max_left _ _
    · exact max_le (by norm_num) (by linarith)
  · exact ⟨rfl, rfl, rfl, rfl,
      fun _ hup => absurd hup h2,
      fun _ hdn => absurd hdn h3,
      fun hlo hhi => ⟨fun hlt => absurd hlt (lt_irrefl _),
        fun hlt => absurd hlt (lt_irrefl _), hlo, hhi⟩⟩

/-! ## Claim C8 -/

/-- C8: a candidate record missing a required numeric field (`market_cap`
or `current_price`) makes `analyze_coin` return `none` rather than let the
exception escape, and any candidate whose analysis fails is excluded from
the batch result while the batch continues over the remaining candidates. -/
theorem c8_analyze_coin_failure_isolated (w : Weights) (prices volumes : List ℚ)
    (rec : CoinRec) (hist : CoinRec → List ℚ × List ℚ) (l1 l2 : List CoinRec) :
    (rec.market_cap = none → analyze_coin w prices volumes rec = none)
    ∧ (rec.current_price = none → analyze_coin w prices volumes rec = none)
    ∧ (analyze_coin w (hist rec).1 (hist rec).2 rec = none →
        analyze_batch w hist (l1 ++ rec :: l2)
          = analyze_batch w hist l1 ++ analyze_batch w hist l2) := by
  refine ⟨?_, ?_, ?_⟩
  · intro h
    cases hs : rec.symbol <;> cases hn : rec.name <;> cases hp : rec.current_price <;>
      simp [analyze_coin, hs, hn, hp, h]
  · intro h
    cases hs : rec.symbol <;> cases hn : rec.name <;> simp [analyze_coin, hs, hn, h]
  · intro h
    simp [analyze_batch, List.filterMap_append, List.filterMap_cons, h]

/-- Witness for C8: a record lacking both required numeric fields among two
intact candidates; the failed candidate alone is dropped. -/
def badRec : CoinRec := ⟨some "xyz", some "Xyz", none, none, some 1, some 1, some 1, false⟩

/-- An intact candidate record for the C8 witness batch. -/
def goodRec : CoinRec := ⟨some "abc", some "Abc", some 2, some 100, some 40, some 1, some 1, false⟩

/-- Witness for C8 at a concrete batch: `badRec` is dropped, `goodRec`
survives on both sides of it. -/
theorem c8_analyze_coin_failure_isolated_witness :
    badRec.market_cap = none
    ∧ analyze_coin initial_weights [] [] badRec = none
    ∧ analyze_batch initial_weights (fun _ => ([], [])) [goodRec, badRec, goodRec]
        = analyze_batch initial_weights (fun _ => ([], [])) [goodRec]
          ++ analyze_batch initial_weights (fun _ => ([], [])) [goodRec] := by
  have h := c8_analyze_coin_failure_isolated initial_weights [] []
    badRec (fun _ => ([], [])) [goodRec] [goodRec]
  exact ⟨rfl, h.1 rfl, h.2.2 (h.1 rfl)⟩

/-! ## Claim C9 -/

theorem dedupe_filter_go (l acc : List Candidate) (s : String) :
    (l.foldl (fun acc c =>
        if acc.any (fun d => d.symbol == c.symbol) then acc else acc ++ [c]) acc).filter
          (fun c => c.symbol == s)
      = acc.filter (fun c => c.symbol == s)
        ++ (if acc.any (fun d => d.symbol == s) then []
            else (l.find? (fun c => c.symbol == s)).toList) := by
  induction l generalizing acc with
  | nil => simp
  | cons c rest ih =>
    rw [List.foldl_cons]
    by_cases hacc : acc.any (fun d => d.symbol == c.symbol)
    · rw [if_pos hacc, ih]
      by_cases hcs : c.symbol = s
      · subst hcs
        rw [if_pos hacc, if_pos hacc]
      · rw [List.find?_cons_of_neg _ (by simpa using hcs)]
    · rw [if_neg hacc, ih]
      by_cases hcs : c.symbol = s
      · subst hcs
        rw [List.find?_cons_of_pos _ (by simp)]
        simp [List.filter_append, List.any_append, hacc]
      · rw [List.find?_cons_of_neg _ (by simpa using hcs)]
        simp [List.filter_append, List.any_append, hcs]

/-- C9 (spec-modelled): among the concatenated strategy outputs, the
deduplicated discovery result keeps, for every symbol, exactly the first
candidate carrying it — so of two same-symbol candidates from different
strategies, the one from the earlier-processed source survives and the
later duplicate is dropped. -/
theorem c9_dedupe_first_wins (l : List Candidate) (s : String) :
    (dedupe l).filter (fun c => c.symbol == s)
        = ((l.find? (fun c => c.symbol == s)).toList)
    ∧ ((l.find? (fun c => c.symbol == s)).isSome →
        ((dedupe l).filter (fun c => c.symbol == s)).length = 1) := by
  have key : (dedupe l).filter (fun c => c.symbol == s)
      = (l.find? (fun c => c.symbol == s)).toList := by
    simpa [dedupe] using dedupe_filter_go l [] s
  refine ⟨key, ?_⟩
  intro hsome
  rw [key]
  obtain ⟨c, hc⟩ := Option.isSome_iff_exists.mp hsome
  simp [hc]

/-! ## Claim C10 -/

/-- C10: `get_weights` hands out a reference distinct from the model's own,
holding the same contents, and a caller's mutation through the returned
reference leaves the model's stored weights unchanged. -/
theorem c10_get_weights_copy (h : DictHeap) (r : ℕ) (w' : Weights)
    (hr : r < h.cells.length) :
    (get_weights h r).2 ≠ r
    ∧ readRef (get_weights h r).1 (get_weights h r).2 = readRef h r
    ∧ readRef (writeRef (get_weights h r).1 (get_weights h r).2 w') r = readRef h r := by
  obtain ⟨w, hw⟩ : ∃ w, h.cells[r]? = some w :=
    ⟨h.cells[r], List.getElem?_eq_getElem hr⟩
  refine ⟨?_, ?_, ?_⟩
  · simp only [get_weights, hw]
    omega
  · simp only [get_weights, hw, readRef, List.getElem?_concat_length]
  · simp only [get_weights, hw, readRef, writeRef]
    rw [List.getElem?_set_ne (by omega), List.getElem?_append_left hr]
    exact hw

/-- Witness for C10: a heap holding the model's dictionary at reference 0. -/
theorem c10_get_weights_copy_witness :
    0 < (DictHeap.mk [initial_weights]).cells.length
    ∧ ((get_weights ⟨[initial_weights]⟩ 0).2 ≠ 0
      ∧ readRef (get_weights ⟨[initial_weights]⟩ 0).1 (get_weights ⟨[initial_weights]⟩ 0).2
          = readRef ⟨[initial_weights]⟩ 0
      ∧ readRef (writeRef (get_weights ⟨[initial_weights]⟩ 0).1
          (get_weights ⟨[initial_weights]⟩ 0).2 wAlt) 0 = readRef ⟨[initial_weights]⟩ 0) :=
  ⟨Nat.zero_lt_one, c10_get_weights_copy ⟨[initial_weights]⟩ 0 wAlt Nat.zero_lt_one⟩

end CryptoBot
